import Mathlib

set_option maxRecDepth 100000

/-!
Shallow embedding of the DART pump-gateway protocol engine
(`mekser_fastapi/app`): the CRC-16 engine, frame construction in
`DartDriver.transact`, the retry loop, the stream framer
(`FrameExtractor`), the BCD codec, the DC1 transaction scanner
(`DC1Parser`), the price-table builder and the authorize endpoint.
Byte strings are modelled as `List Nat` (every byte 0..255); Python
slice semantics (clamping) are modelled with `List.drop`/`List.take`,
Python `bytes.index`/`bytes.find` with an explicit search function, and
Python indexing with `List.getD` (in-range at every use site reached by
the source). Loops that mutate a cursor or a buffer are modelled with
explicit fuel; the fuel chosen is provably larger than the number of
iterations the source loop can perform.
-/

namespace Ung

/-- `config.CRC_POLY`. -/
def CRC_POLY : Nat := 0x1021

/-- `config.CRC_INIT`. The source sets `0xFFFF` even though the
docstrings of `driver.calc_crc` and of the module claim init `0x0000`. -/
def CRC_INIT : Nat := 0xFFFF

/-- One shift step of the bit-at-a-time CRC loop in `driver.calc_crc`:
`crc = ((crc << 1) ^ poly) & 0xFFFF` when bit 15 is set, else
`(crc << 1) & 0xFFFF`. -/
def crcShift (c : Nat) : Nat :=
  if c &&& 0x8000 ≠ 0 then ((c <<< 1) ^^^ CRC_POLY) &&& 0xFFFF
  else (c <<< 1) &&& 0xFFFF

/-- Processing of one input byte in `driver.calc_crc`:
`crc ^= byte << 8` followed by eight shift steps. -/
def crcByte (crc b : Nat) : Nat :=
  (List.range 8).foldl (fun c _ => crcShift c) (crc ^^^ (b <<< 8))

/-- The CRC loop with an explicit initial register value.
`driver.calc_crc` is `crcRun CRC_INIT`; `pump_status_parser.crc16_ccitt`
is `crcRun 0`. -/
def crcRun (init : Nat) (data : List Nat) : Nat :=
  data.foldl crcByte init

/-- `driver.calc_crc` (initial register from `config.CRC_INIT = 0xFFFF`). -/
def calc_crc (data : List Nat) : Nat := crcRun CRC_INIT data

/-- `pump_status_parser.crc16_ccitt` (literal initial register 0x0000). -/
def crc16_ccitt (data : List Nat) : Nat := crcRun 0 data

/-- Frame built inside `DartDriver.transact` (driver.py lines 82-92):
body = concatenation of the transaction blocks, `ctrl = 0xF0`, the
sequence byte travels as its own byte between CTRL and LNG, the CRC
(init 0xFFFF) is taken over `[addr, ctrl, seq, lng] ++ body` and
appended low byte first, then `ETX (0x03)` and `SF (0xFA)`. -/
def transactFrame (addr seq : Nat) (blocks : List (List Nat)) : List Nat :=
  let body := blocks.flatten
  let lng := body.length
  let ctrl := 0xF0
  let hdr := [addr, ctrl, seq, lng] ++ body
  let crc := calc_crc hdr
  [0x02] ++ hdr ++ [crc % 256, crc / 256 % 256] ++ [0x03, 0xFA]

/-- `self._seq = 0x80 if self._seq == 0x00 else 0x00` (driver.py line 86). -/
def toggleSeq (s : Nat) : Nat := if s = 0 then 0x80 else 0x00

/-- `bytes.index(v)`: index of the first occurrence of `v`, `none` when
absent (Python raises `ValueError`, caught by the callers modelled here). -/
def findFrom (v : Nat) : List Nat → Option Nat
  | [] => none
  | a :: t => if a = v then some 0 else (findFrom v t).map (· + 1)

/-- `buf.index(v, start)` / `buf.find(v, start)`: first occurrence of `v`
at position `start` or later (`find` returning -1 is modelled as `none`). -/
def findFromAt (v : Nat) (buf : List Nat) (start : Nat) : Option Nat :=
  (findFrom v (buf.drop start)).map (· + start)

/-- Receive-side validation of one attempt in `DartDriver.transact`
(lines 121-137): locate STX, locate ETX after it, and require the CRC
(init 0xFFFF) over `buf[stx+1 : etx-1]` to be zero; a missing marker
(`ValueError`) fails the attempt. -/
def rxValid (buf : List Nat) : Bool :=
  match findFrom 0x02 buf with
  | none => false
  | some stx =>
    match findFromAt 0x03 buf (stx + 1) with
    | none => false
    | some etx => crcRun CRC_INIT ((buf.drop (stx + 1)).take (etx - 1 - (stx + 1))) = 0

/-- The retry loop of `DartDriver.transact` (lines 95-143). `ch k` is the
byte buffer accumulated by the read phase of attempt `k` (empty when the
channel yields nothing before the timeout). Each iteration writes the
frame once; an empty buffer, a missing marker or a nonzero CRC residue
fails the attempt. Returns the bytes handed back to the caller (`b""`
after the loop exhausts) together with the frames written, in order.
The fuel is the remaining-attempts bound `3 - attempts`. -/
def transactGo (ch : Nat → List Nat) (frame : List Nat) :
    Nat → Nat → List Nat × List (List Nat)
  | 0, _ => ([], [])
  | fuel + 1, k =>
    let buf := ch k
    if buf ≠ [] ∧ rxValid buf = true then (buf, [frame])
    else
      let r := transactGo ch frame fuel (k + 1)
      (r.1, frame :: r.2)

/-- Result of one `DartDriver.transact` call: the returned bytes, the
frames written to the serial port, and the channel sequence state after
the call. -/
structure TransactResult where
  result : List Nat
  writes : List (List Nat)
  seqOut : Nat

/-- `DartDriver.transact` (driver.py lines 73-143): the sequence byte is
read once and the stored toggle flipped once, before the loop; the frame
is built once and re-sent unchanged on every attempt, up to 3 attempts. -/
def transact (ch : Nat → List Nat) (addr : Nat) (blocks : List (List Nat))
    (seq : Nat) : TransactResult :=
  let frame := transactFrame addr seq blocks
  let r := transactGo ch frame 3 0
  ⟨r.1, r.2, toggleSeq seq⟩

/-- One scan of `FrameExtractor.get_frames` (pump_status_parser.py lines
74-93) over the accumulated buffer: find STX; with fewer than 2 bytes
before it, delete through it and rescan; otherwise find SF at or after
the STX (none: stop, keep the buffer); the candidate spans from two
bytes before the STX through the SF, and is deleted from the buffer.
When no STX is found the buffer is cleared. Returns (candidates,
remaining buffer). Each continuing iteration deletes at least one byte,
so fuel `buf.length + 1` is never exhausted. -/
def getFramesAux : Nat → List Nat → List (List Nat) × List Nat
  | 0, buf => ([], buf)
  | fuel + 1, buf =>
    match findFrom 0x02 buf with
    | none => ([], [])
    | some idx =>
      if idx < 2 then getFramesAux fuel (buf.drop (idx + 1))
      else
        match findFromAt 0xFA buf idx with
        | none => ([], buf)
        | some e =>
          let raw := (buf.drop (idx - 2)).take (e + 1 - (idx - 2))
          let r := getFramesAux fuel (buf.drop (e + 1))
          (raw :: r.1, r.2)

/-- `FrameExtractor.get_frames` on a freshly fed buffer. -/
def getFrames (buf : List Nat) : List (List Nat) × List Nat :=
  getFramesAux (buf.length + 1) buf

/-- `pump_status_parser.build_frame`: layout
`[ADR][CTRL][STX][TRANS][LNG][payload][CRC-L][CRC-H][ETX][SF]` with
`ctrl = 0x80 | (tx & 0x0F)` and the CRC (init 0x0000) over the bytes up
to the payload end, appended low byte first. -/
def build_frame (addr trans : Nat) (payload : List Nat) (tx : Nat) : List Nat :=
  let ctrl := 0x80 ||| (tx &&& 0x0F)
  let hdr := [addr, ctrl, 0x02, trans, payload.length] ++ payload
  let crc := crc16_ccitt hdr
  hdr ++ [crc % 256, crc / 256 % 256, 0x03, 0xFA]

/-- `pump_status_parser.parse_frame`: structural checks (length ≥ 9, STX
at offset 2, ETX and SF at the tail), then comparison of the computed
CRC (init 0x0000, over `raw[:5+length]`) with the transmitted pair;
returns `(addr, trans, data)` on success. -/
def parse_frame (raw : List Nat) : Option (Nat × Nat × List Nat) :=
  if raw.length < 9 ∨ raw.getD 2 0 ≠ 0x02 ∨ raw.getD (raw.length - 2) 0 ≠ 0x03 ∨
      raw.getD (raw.length - 1) 0 ≠ 0xFA then none
  else
    let length := raw.getD 4 0
    let crc_l := raw.getD (5 + length) 0
    let crc_h := raw.getD (6 + length) 0
    if crc16_ccitt (raw.take (5 + length)) ≠ crc_h * 256 + crc_l then none
    else some (raw.getD 0 0, raw.getD 3 0, (raw.drop 5).take length)

/-- Decimal digits of `n`, least significant first, with explicit fuel
(`n` itself bounds the digit count). -/
def decDigitsLE : Nat → Nat → List Nat
  | 0, _ => []
  | fuel + 1, n => if n = 0 then [] else n % 10 :: decDigitsLE fuel (n / 10)

/-- Decimal digits of `n`, most significant first; `str(n)` digit by
digit, so `0` gives `[0]`. -/
def decDigits (n : Nat) : List Nat :=
  if n = 0 then [0] else (decDigitsLE n n).reverse

/-- The chunking `int(s[i:i+2]) for i in range(0, len(s), 2)` of
`core.int_to_bcd`: consecutive digit pairs read as decimal numbers
(a trailing odd digit stands alone). -/
def pairChunks : List Nat → List Nat
  | [] => []
  | [a] => [a]
  | a :: b :: t => (10 * a + b) :: pairChunks t

/-- `core.int_to_bcd`: `str(n)` right-justified with zeros to `width*2`
characters, then each two-character group converted with `int(...)` —
i.e. the byte stores the pair's decimal value, not its packed nibbles. -/
def int_to_bcd (n width : Nat) : List Nat :=
  pairChunks (List.replicate (width * 2 - (decDigits n).length) 0 ++ decDigits n)

/-- `core.bcd_to_int`: base-100 accumulation of the nibble pairs
`((byte >> 4) & 0xF) * 10 + (byte & 0xF)`. -/
def bcd_to_int (b : List Nat) : Nat :=
  b.foldl (fun res byte => res * 100 + (byte / 16 % 16) * 10 + byte % 16) 0

/-- The transaction loop of `DC1Parser.extract` (core.py lines 232-243):
starting at offset 5, while `off < 5 + lng` read `trans = frame[off]`,
`length = frame[off+1]`; on a DC1 with `length >= 1` return
`frame[off+2]` (the first byte of the clamped slice
`frame[off+2 : off+2+length]`), else advance by `2 + length`. Each
iteration advances the offset by at least 2, so fuel `lng + 1` is never
exhausted. -/
def dc1Inner (frame : List Nat) (lng : Nat) : Nat → Nat → Option Nat
  | 0, _ => none
  | fuel + 1, off =>
    if off < 5 + lng then
      let trans := frame.getD off 0
      let length := frame.getD (off + 1) 0
      if trans = 0x01 ∧ 1 ≤ length then some (frame.getD (off + 2) 0)
      else dc1Inner frame lng fuel (off + 2 + length)
    else none

/-- Processing of one candidate `raw` inside `DC1Parser.extract` (core.py
lines 218-247): length and ETX checks, truncation to
`full_len = 5 + lng + 4`, CRC comparison (init 0xFFFF over
`frame[1 : 5+lng]` against `(crc_h << 8) | crc_l`), then the transaction
loop; any failure falls through (`none`) and the outer scan continues. -/
def dc1Step (raw : List Nat) : Option Nat :=
  if 9 ≤ raw.length ∧ raw.getD (raw.length - 2) 0 = 0x03 then
    let lng := raw.getD 4 0
    if 5 + lng + 4 ≤ raw.length then
      let frame := raw.take (5 + lng + 4)
      let hdr := (frame.drop 1).take (4 + lng)
      let crc_l := frame.getD (5 + lng) 0
      let crc_h := frame.getD (6 + lng) 0
      if calc_crc hdr = crc_h * 256 + crc_l then dc1Inner frame lng (lng + 1) 5
      else none
    else none
  else none

/-- The scan loop of `DC1Parser.extract` (core.py lines 204-254): find
STX from `ndx`, find SF after it (either missing: return `None`), take
`raw = buf[stx : end+1]`, try `dc1Step`, and on failure continue from
`end + 1`. The start index grows by at least 2 per iteration, so fuel
`buf.length + 1` is never exhausted. -/
def dc1ExtractAux (buf : List Nat) : Nat → Nat → Option Nat
  | 0, _ => none
  | fuel + 1, ndx =>
    match findFromAt 0x02 buf ndx with
    | none => none
    | some stx =>
      match findFromAt 0xFA buf (stx + 1) with
      | none => none
      | some e =>
        match dc1Step ((buf.drop stx).take (e + 1 - stx)) with
        | some s => some s
        | none => dc1ExtractAux buf fuel (e + 1)

/-- `DC1Parser.extract` on a freshly fed buffer. -/
def dc1Extract (buf : List Nat) : Option Nat := dc1ExtractAux buf (buf.length + 1) 0

/-- `PumpService.return_status` as a function of the bytes handed back by
the driver: feed them to a fresh `DC1Parser` and extract; `None` becomes
the empty dict `{}` (modelled `none`), a found status byte is returned. -/
def return_status_result (rx : List Nat) : Option Nat := dc1Extract rx

/-- `api_extended._price_to_bcd` on the already-scaled integer
`value = int(round(price * 100))` (e.g. 52.50 gives 5250, exactly):
format to at least six decimal digits and pack two digits per byte,
high nibble first. -/
def priceToBcd (value : Nat) : List Nat :=
  let p := List.replicate (6 - (decDigits value).length) 0 ++ decDigits value
  [16 * p.getD 0 0 + p.getD 1 0, 16 * p.getD 2 0 + p.getD 3 0, 16 * p.getD 4 0 + p.getD 5 0]

/-- `_PumpServiceExt.update_price` up to the channel write: reject any
nozzle number outside 1..16, else build the CD5 block
`[0x05, len(payload)] ++ payload` where the payload is sixteen 3-byte
entries, nozzle 1 through 16, each `_price_to_bcd(price_map.get(nz, 0.0))`.
The dict is modelled as an association list of (nozzle, hundredths). -/
def update_price_block (entries : List (Nat × Nat)) : Option (List Nat) :=
  if entries.any (fun e => Nat.blt e.1 1 || Nat.blt 16 e.1) then none
  else
    let look := fun nz => (((entries.find? (fun e => e.1 == nz)).map (fun e => e.2)).getD 0)
    let payload := ((List.range' 1 16).map (fun nz => priceToBcd (look nz))).flatten
    some ([0x05, payload.length] ++ payload)

/-- The transaction blocks `PumpService.authorize` hands to the driver,
in order: a CD3 preset-volume block when `volume` is set, a CD4
preset-amount block when `amount` is set, then the CD1 AUTHORIZE block
`[0x01, 0x01, 0x06]`; `int(x * 100)` on the positive float preset is
modelled as `⌊x * 100⌋` over `ℚ`. Each block reaches `driver.transact`
and is written to the channel at least once. -/
def authorize_io (volume amount : Option ℚ) : List (List Nat) :=
  (match volume with
   | some v => [[0x03, 0x04] ++ int_to_bcd (Int.toNat ⌊v * 100⌋) 4]
   | none => []) ++
  (match amount with
   | some a => [[0x04, 0x04] ++ int_to_bcd (Int.toNat ⌊a * 100⌋) 4]
   | none => []) ++
  [[0x01, 0x01, 0x06]]

/-- Python float truthiness of an optional preset field: `None` and
`0.0` are falsy. -/
def floatTruthy : Option ℚ → Bool
  | none => false
  | some x => decide (x ≠ 0)

/-- The `/pump/{id}/authorize` endpoint (api.py lines 61-68): when the
preset is supplied and both fields are truthy it raises HTTP 400 before
`PumpService.authorize` runs (so nothing is built or written); otherwise
it calls the service, whose channel writes are returned. -/
def api_authorize (preset : Option (Option ℚ × Option ℚ)) :
    Except Nat (List (List Nat)) :=
  match preset with
  | none => Except.ok (authorize_io none none)
  | some (vo, ao) =>
    if floatTruthy vo && floatTruthy ao then Except.error 400
    else Except.ok (authorize_io vo ao)

/-- The Transaction Multiplexer's `encode` as the specification states it
(§4.5): concatenate `[code, length, payload]` per record in order. Used
to characterise the bodies in which every record is well formed. -/
def encodeRecords (recs : List (Nat × List Nat)) : List Nat :=
  (recs.map (fun r => r.1 :: r.2.length :: r.2)).flatten

/-- First DC1 record of a record list, as the DC1 scanner looks for it:
first record with code 0x01 and declared length ≥ 1; its first payload
byte is the status. -/
def firstDc1Enc (recs : List (Nat × List Nat)) : Option Nat :=
  (recs.find? (fun r => r.1 == 0x01 && Nat.ble 1 r.2.length)).map (fun r => r.2.getD 0 0)

/-- Claim C1 (code bug): for the frame `DartDriver.transact` builds for
the pump-1 status command (address 0x51, sequence byte 0x00, block
`[CD1, 0x01, RETURN_STATUS]`), the CRC computed over the bytes from the
address byte through the checksum high byte is 0x68EC ≠ 0 with the
claim's init 0x0000, and 0x709E ≠ 0 even with the code's own init
0xFFFF: the residue-zero property fails because the checksum is appended
low byte first (and the configured init contradicts the `calc_crc`
docstring), contradicting the self-check in `_build_frame` which expects
this residue to be 0x0000. -/
theorem crc_residue_nonzero_on_built_frame :
    ((transactFrame 0x51 0 [[0x01, 0x01, 0x00]]).drop 1).take 9 =
      [0x51, 0xF0, 0x00, 0x03, 0x01, 0x01, 0x00, 0x59, 0xAD] ∧
    (transactFrame 0x51 0 [[0x01, 0x01, 0x00]]).length = 9 + 3 ∧
    crcRun 0 (((transactFrame 0x51 0 [[0x01, 0x01, 0x00]]).drop 1).take 9) = 0x68EC ∧
    crcRun CRC_INIT (((transactFrame 0x51 0 [[0x01, 0x01, 0x00]]).drop 1).take 9) = 0x709E ∧
    (0x68EC ≠ 0 ∧ 0x709E ≠ 0) := by
  decide

/-- Claim C2 counterexample: the frame built for address 0x51, sequence
byte 0x00 and the single 3-byte block [01 01 00] has 12 bytes with a
standalone sequence byte 0x00 at offset 3 and the length byte at offset
4; under the claimed layout [START][ADDR][CTRL][LEN][BODY…][CRC-LO]
[CRC-HI][END][STOP] the byte at offset 3 would be the body count 3 and
the frame would have 11 bytes. -/
theorem transact_frame_has_extra_seq_byte :
    transactFrame 0x51 0 [[0x01, 0x01, 0x00]] =
      [0x02, 0x51, 0xF0, 0x00, 0x03, 0x01, 0x01, 0x00, 0x59, 0xAD, 0x03, 0xFA] ∧
    (transactFrame 0x51 0 [[0x01, 0x01, 0x00]]).getD 3 0 ≠ 3 ∧
    (transactFrame 0x51 0 [[0x01, 0x01, 0x00]]).length ≠ 11 := by
  decide

/-- Claim C2 (amended): every frame written by `transact` has the wire
layout [START][ADDR][CTRL][SEQ][LEN][BODY…][CRC-LO][CRC-HI][END][STOP]:
the control byte is the constant 0xF0 (host data bits, no sequence bit
inside it), the sequence toggle travels as its own byte at offset 3, the
length byte at offset 4 equals the actual body byte count, the CRC (init
0xFFFF, over ADDR..body end) is appended low byte first, and the frame
closes with END 0x03 and STOP 0xFA. -/
theorem transact_frame_layout (addr seq : Nat) (blocks : List (List Nat)) :
    transactFrame addr seq blocks =
      [0x02, addr, 0xF0, seq, blocks.flatten.length] ++ blocks.flatten ++
        [calc_crc ([addr, 0xF0, seq, blocks.flatten.length] ++ blocks.flatten) % 256,
         calc_crc ([addr, 0xF0, seq, blocks.flatten.length] ++ blocks.flatten) / 256 % 256,
         0x03, 0xFA] ∧
    (transactFrame addr seq blocks).length = blocks.flatten.length + 9 ∧
    (transactFrame addr seq blocks).getD 2 0 = 0xF0 ∧
    (transactFrame addr seq blocks).getD 3 0 = seq ∧
    (transactFrame addr seq blocks).getD 4 0 = blocks.flatten.length := by
  refine ⟨?_, ?_, ?_, ?_, ?_⟩ <;> simp [transactFrame]

/-- Claim C4 (code bug): the BCD round trip fails: `int_to_bcd 52 4`
stores the decimal pair value 52 as the byte value (not the packed
nibbles 0x52), so `bcd_to_int` reads its nibbles 3 and 4 back as 34. -/
theorem bcd_roundtrip_fails_at_52 :
    int_to_bcd 52 4 = [0, 0, 0, 52] ∧
    bcd_to_int (int_to_bcd 52 4) = 34 ∧ (34 : Nat) ≠ 52 := by
  decide

/-- Claim C5: against a channel that never yields any bytes, `transact`
writes the frame exactly 3 times and returns the empty byte string, the
explicit exhausted-retries outcome (never a frame). -/
theorem transact_retry_bound (addr : Nat) (blocks : List (List Nat)) (seq : Nat) :
    (transact (fun _ => []) addr blocks seq).result = [] ∧
    (transact (fun _ => []) addr blocks seq).writes.length = 3 :=
  ⟨rfl, rfl⟩

/-- Claim C6 counterexample: in a single `transact` call against a silent
channel, 3 attempts are performed but attempts 1 and 2 write bytewise
identical frames — in particular the same sequence byte at offset 3 —
and the stored sequence state is toggled once (0x00 to 0x80), not once
per attempt, contradicting "no two consecutive attempts carry the same
sequence bit". -/
theorem seq_constant_across_retries :
    (transact (fun _ => []) 0x51 [[0x01, 0x01, 0x00]] 0).writes.length = 3 ∧
    (transact (fun _ => []) 0x51 [[0x01, 0x01, 0x00]] 0).writes.getD 0 [] =
      (transact (fun _ => []) 0x51 [[0x01, 0x01, 0x00]] 0).writes.getD 1 [] ∧
    ((transact (fun _ => []) 0x51 [[0x01, 0x01, 0x00]] 0).writes.getD 0 []).getD 3 0 =
      ((transact (fun _ => []) 0x51 [[0x01, 0x01, 0x00]] 0).writes.getD 1 []).getD 3 0 ∧
    (transact (fun _ => []) 0x51 [[0x01, 0x01, 0x00]] 0).seqOut = 0x80 := by
  decide

/-- Every frame the retry loop writes is the one frame built before the
loop. -/
theorem transactGo_writes_constant (ch : Nat → List Nat) (frame : List Nat) :
    ∀ fuel k, ((transactGo ch frame fuel k).2).all (fun g => g == frame) = true := by
  intro fuel
  induction fuel with
  | zero => intro k; rfl
  | succ n ih =>
    intro k
    by_cases h : ch k ≠ [] ∧ rxValid (ch k) = true
    · simp [transactGo, h]
    · simp [transactGo, h, ih (k + 1)]

/-- Claim C6 (amended): the sequence bit is read and toggled exactly once
per `transact` call, before the first attempt; every attempt, retries
included, writes the identical frame carrying that same sequence byte,
and the stored sequence state after the call is the single toggle of the
state before it. -/
theorem seq_toggled_once_per_call (ch : Nat → List Nat) (addr : Nat)
    (blocks : List (List Nat)) (seq : Nat) :
    ((transact ch addr blocks seq).writes.all
      (fun g => g == transactFrame addr seq blocks)) = true ∧
    (transact ch addr blocks seq).seqOut = toggleSeq seq :=
  ⟨transactGo_writes_constant ch (transactFrame addr seq blocks) 3 0, rfl⟩

/-- `findFrom` skips a prefix free of the searched byte. -/
theorem findFrom_append (v : Nat) (a l : List Nat) (h : ∀ x ∈ a, x ≠ v) :
    findFrom v (a ++ l) = (findFrom v l).map (· + a.length) := by
  induction a with
  | nil =>
    simp only [List.nil_append, List.length_nil]
    cases findFrom v l with
    | none => rfl
    | some n => simp
  | cons x t ih =>
    have hx : x ≠ v := h x (List.mem_cons_self x t)
    have ht : ∀ y ∈ t, y ≠ v := fun y hy => h y (List.mem_cons_of_mem x hy)
    have hstep : findFrom v (x :: (t ++ l)) = (findFrom v (t ++ l)).map (· + 1) := by
      simp [findFrom, hx]
    rw [List.cons_append, hstep, ih ht]
    cases findFrom v l with
    | none => rfl
    | some n => simp; omega

/-- The extractor on an empty buffer stops immediately. -/
theorem getFramesAux_nil (fuel : Nat) : getFramesAux fuel [] = ([], []) := by
  cases fuel <;> simp [getFramesAux, findFrom]

/-- One iteration of `get_frames` over `noise ++ frame ++ rest`: with no
STX byte in the noise, a frame whose first two bytes are not STX, whose
third byte is STX, and whose only SF byte is its last, the iteration
emits exactly the frame and continues on `rest`. -/
theorem getFramesAux_step (fuel : Nat) (noise rest : List Nat) (x y : Nat) (m : List Nat)
    (hx : x ≠ 2) (hy : y ≠ 2) (hm : ∀ b ∈ m, b ≠ 0xFA)
    (hn : ∀ b ∈ noise, b ≠ 2) :
    getFramesAux (fuel + 1) (noise ++ (x :: y :: 2 :: m ++ [0xFA]) ++ rest) =
      ((x :: y :: 2 :: m ++ [0xFA]) :: (getFramesAux fuel rest).1,
        (getFramesAux fuel rest).2) := by
  have hpre : ∀ b ∈ noise ++ [x, y], b ≠ 2 := by
    intro b hb
    rcases List.mem_append.mp hb with h1 | h2
    · exact hn b h1
    · simp at h2
      rcases h2 with rfl | rfl
      · exact hx
      · exact hy
  have hassoc : noise ++ (x :: y :: 2 :: m ++ [0xFA]) ++ rest
      = (noise ++ [x, y]) ++ (2 :: (m ++ (0xFA :: rest))) := by simp
  have hfind : findFrom 2 (noise ++ (x :: y :: 2 :: m ++ [0xFA]) ++ rest)
      = some (noise.length + 2) := by
    rw [hassoc, findFrom_append 2 _ _ hpre]
    simp [findFrom]
  have hmSF : ∀ b ∈ (2 :: m), b ≠ 0xFA := by
    intro b hb
    rcases List.mem_cons.mp hb with rfl | hb2
    · decide
    · exact hm b hb2
  have hdrop2 : (noise ++ (x :: y :: 2 :: m ++ [0xFA]) ++ rest).drop (noise.length + 2)
      = (2 :: m) ++ (0xFA :: rest) := by
    rw [hassoc]
    have hd : ((noise ++ [x, y]) ++ (2 :: (m ++ (0xFA :: rest)))).drop (noise.length + 2)
        = 2 :: (m ++ (0xFA :: rest)) := List.drop_left' (by simp)
    rw [hd]
    simp
  have hSF : findFromAt 0xFA (noise ++ (x :: y :: 2 :: m ++ [0xFA]) ++ rest) (noise.length + 2)
      = some (noise.length + m.length + 3) := by
    unfold findFromAt
    rw [hdrop2, findFrom_append 0xFA _ _ hmSF]
    simp [findFrom]
    omega
  have hraw : ((noise ++ (x :: y :: 2 :: m ++ [0xFA]) ++ rest).drop (noise.length + 2 - 2)).take
      (noise.length + m.length + 3 + 1 - (noise.length + 2 - 2))
      = x :: y :: 2 :: m ++ [0xFA] := by
    have h1 : noise.length + 2 - 2 = noise.length := by omega
    rw [h1]
    have h2 : noise.length + m.length + 3 + 1 - noise.length = m.length + 4 := by omega
    rw [h2]
    have hassoc2 : noise ++ (x :: y :: 2 :: m ++ [0xFA]) ++ rest
        = noise ++ ((x :: y :: 2 :: m ++ [0xFA]) ++ rest) := by simp
    rw [hassoc2]
    have hd : (noise ++ ((x :: y :: 2 :: m ++ [0xFA]) ++ rest)).drop noise.length
        = (x :: y :: 2 :: m ++ [0xFA]) ++ rest := List.drop_left _ _
    rw [hd]
    exact List.take_left' (by simp)
  have hrest : (noise ++ (x :: y :: 2 :: m ++ [0xFA]) ++ rest).drop
      (noise.length + m.length + 3 + 1) = rest := by
    exact List.drop_left'
      (by simp only [List.length_append, List.length_cons, List.length_nil]; omega)
  simp only [getFramesAux, hfind, hSF, hraw, hrest]
  rw [if_neg (by omega)]

/-- Claim C3 (amended): feeding `noise ++ F1 ++ garbage ++ F2` to the
Stream Framer yields exactly the two candidates F1 and F2 (and an empty
remaining buffer) provided the noise and garbage contain no start-marker
byte 0x02, and each Fi is a valid frame whose first two bytes are not
0x02, whose third byte is the start marker, and whose only stop-marker
byte 0xFA is its final byte. Without these restrictions the claim fails:
see the counterexample, where noise ending in a start marker is glued
into the first candidate. -/
theorem framer_resync (noise garbage : List Nat) (x1 y1 x2 y2 : Nat)
    (m1 m2 F1 F2 : List Nat)
    (hF1 : F1 = x1 :: y1 :: 2 :: m1 ++ [0xFA]) (hF2 : F2 = x2 :: y2 :: 2 :: m2 ++ [0xFA])
    (hx1 : x1 ≠ 2) (hy1 : y1 ≠ 2) (hx2 : x2 ≠ 2) (hy2 : y2 ≠ 2)
    (hm1 : ∀ b ∈ m1, b ≠ 0xFA) (hm2 : ∀ b ∈ m2, b ≠ 0xFA)
    (hn : ∀ b ∈ noise, b ≠ 2) (hg : ∀ b ∈ garbage, b ≠ 2)
    (hv1 : (parse_frame F1).isSome = true) (hv2 : (parse_frame F2).isSome = true) :
    getFrames (noise ++ F1 ++ garbage ++ F2) = ([F1, F2], []) := by
  subst hF1; subst hF2
  unfold getFrames
  have hassoc : noise ++ (x1 :: y1 :: 2 :: m1 ++ [0xFA]) ++ garbage
      ++ (x2 :: y2 :: 2 :: m2 ++ [0xFA])
      = noise ++ (x1 :: y1 :: 2 :: m1 ++ [0xFA])
        ++ (garbage ++ (x2 :: y2 :: 2 :: m2 ++ [0xFA])) := by simp
  rw [hassoc]
  set L := (noise ++ (x1 :: y1 :: 2 :: m1 ++ [0xFA])
    ++ (garbage ++ (x2 :: y2 :: 2 :: m2 ++ [0xFA]))).length with hL
  rw [getFramesAux_step L noise (garbage ++ (x2 :: y2 :: 2 :: m2 ++ [0xFA])) x1 y1 m1
    hx1 hy1 hm1 hn]
  have hLpos : 1 ≤ L := by
    rw [hL]
    simp only [List.length_append, List.length_cons, List.length_nil]
    omega
  obtain ⟨K, hK⟩ : ∃ K, L = K + 1 := ⟨L - 1, by omega⟩
  rw [hK]
  have hnil : garbage ++ (x2 :: y2 :: 2 :: m2 ++ [0xFA])
      = garbage ++ (x2 :: y2 :: 2 :: m2 ++ [0xFA]) ++ ([] : List Nat) := by simp
  rw [hnil, getFramesAux_step K garbage [] x2 y2 m2 hx2 hy2 hm2 hg, getFramesAux_nil]

/-- Claim C3 counterexample: with noise [0, 0, 2] — three bytes ending in
a start marker with two preceding bytes — in front of two valid frames,
the extractor glues the noise onto the first candidate: it emits
`noise ++ F1` and `F2`, not `F1` and `F2`. -/
theorem framer_resync_cex :
    (parse_frame [0x51, 0x81, 0x02, 0x01, 0x01, 0x00, 0xDC, 0x54, 0x03, 0xFA]).isSome = true ∧
    (parse_frame [0x51, 0x81, 0x02, 0x01, 0x01, 0x01, 0xFD, 0x44, 0x03, 0xFA]).isSome = true ∧
    (getFrames ([0, 0, 2] ++ [0x51, 0x81, 0x02, 0x01, 0x01, 0x00, 0xDC, 0x54, 0x03, 0xFA]
        ++ [0x51, 0x81, 0x02, 0x01, 0x01, 0x01, 0xFD, 0x44, 0x03, 0xFA])).1 ≠
      [[0x51, 0x81, 0x02, 0x01, 0x01, 0x00, 0xDC, 0x54, 0x03, 0xFA],
        [0x51, 0x81, 0x02, 0x01, 0x01, 0x01, 0xFD, 0x44, 0x03, 0xFA]] := by
  decide

/-- Witness for `framer_resync`: concrete noise [0, 1], garbage [0xFF]
and two concrete valid frames. -/
theorem framer_resync_witness :
    (∀ b ∈ ([0, 1] : List Nat), b ≠ 2) ∧
    getFrames ([0, 1] ++ [0x51, 0x81, 0x02, 0x01, 0x01, 0x00, 0xDC, 0x54, 0x03, 0xFA]
        ++ [0xFF] ++ [0x51, 0x81, 0x02, 0x01, 0x01, 0x01, 0xFD, 0x44, 0x03, 0xFA]) =
      ([[0x51, 0x81, 0x02, 0x01, 0x01, 0x00, 0xDC, 0x54, 0x03, 0xFA],
        [0x51, 0x81, 0x02, 0x01, 0x01, 0x01, 0xFD, 0x44, 0x03, 0xFA]], []) :=
  ⟨by decide,
    framer_resync [0, 1] [0xFF] 0x51 0x81 0x51 0x81
      [0x01, 0x01, 0x00, 0xDC, 0x54, 0x03] [0x01, 0x01, 0x01, 0xFD, 0x44, 0x03] _ _
      rfl rfl (by decide) (by decide) (by decide) (by decide)
      (by decide) (by decide) (by decide) (by decide) (by decide) (by decide)⟩

/-- The body of a record list encoded per the specification's
multiplexer: cons case. -/
theorem encodeRecords_cons (c : Nat) (p : List Nat) (rest : List (Nat × List Nat)) :
    encodeRecords ((c, p) :: rest) = c :: p.length :: (p ++ encodeRecords rest) := by
  simp [encodeRecords]

/-- Every record contributes at least its two header bytes. -/
theorem length_le_encodeRecords (recs : List (Nat × List Nat)) :
    recs.length ≤ (encodeRecords recs).length := by
  induction recs with
  | nil => simp [encodeRecords]
  | cons r t ih =>
    obtain ⟨c, p⟩ := r
    rw [encodeRecords_cons]
    simp only [List.length_cons, List.length_append]
    omega

/-- Reading past a prefix: `getD` at `l1.length + k` lands in `l2`. -/
theorem getD_append_offset (l1 l2 : List Nat) (k d : Nat) :
    (l1 ++ l2).getD (l1.length + k) d = l2.getD k d := by
  rw [List.getD_append_right _ _ _ _ (by omega)]
  congr 1
  omega

/-- The DC1 transaction scan agrees with the record list whenever the
portion of the frame after the 5-byte header is an exact record
encoding followed by the trailer: starting at any record boundary it
returns the first DC1 record's first payload byte. -/
theorem dc1Inner_encode (post : List Nat) (recs : List (Nat × List Nat)) :
    ∀ (front : List Nat) (fuel : Nat), 5 ≤ front.length → recs.length < fuel →
      dc1Inner (front ++ (encodeRecords recs ++ post))
        (front.length - 5 + (encodeRecords recs).length) fuel front.length =
      firstDc1Enc recs := by
  induction recs with
  | nil =>
    intro front fuel h5 hf
    obtain ⟨f, rfl⟩ : ∃ f, fuel = f + 1 := ⟨fuel - 1, by omega⟩
    simp only [dc1Inner, encodeRecords, List.map_nil, List.flatten_nil, List.length_nil,
      Nat.add_zero, firstDc1Enc, List.find?_nil, Option.map_none']
    rw [if_neg (by omega)]
  | cons r rest ih =>
    obtain ⟨c, p⟩ := r
    intro front fuel h5 hf
    obtain ⟨f, rfl⟩ : ∃ f, fuel = f + 1 := ⟨fuel - 1, by omega⟩
    rw [encodeRecords_cons]
    simp only [dc1Inner]
    rw [if_pos (by simp only [List.length_cons, List.length_append]; omega)]
    have hgA : (front ++ ((c :: p.length :: (p ++ encodeRecords rest)) ++ post)).getD
        front.length 0 = c := by
      have h := getD_append_offset front ((c :: p.length :: (p ++ encodeRecords rest)) ++ post) 0 0
      simpa using h
    have hgB : (front ++ ((c :: p.length :: (p ++ encodeRecords rest)) ++ post)).getD
        (front.length + 1) 0 = p.length := by
      have h := getD_append_offset front ((c :: p.length :: (p ++ encodeRecords rest)) ++ post) 1 0
      simpa using h
    have hgC : (front ++ ((c :: p.length :: (p ++ encodeRecords rest)) ++ post)).getD
        (front.length + 2) 0 = (p ++ (encodeRecords rest ++ post)).getD 0 0 := by
      have h := getD_append_offset front ((c :: p.length :: (p ++ encodeRecords rest)) ++ post) 2 0
      simpa using h
    rw [hgA, hgB, hgC]
    by_cases hc : c = 0x01 ∧ 1 ≤ p.length
    · rw [if_pos hc]
      obtain ⟨rfl, hlen⟩ := hc
      have hpred : (fun (r : Nat × List Nat) => r.1 == 0x01 && Nat.ble 1 r.2.length)
          (1, p) = true := by
        simpa [Nat.ble_eq] using hlen
      have hfindr : firstDc1Enc ((1, p) :: rest) = some (p.getD 0 0) := by
        unfold firstDc1Enc
        rw [@List.find?_cons_of_pos (Nat × List Nat)
          (fun r => r.1 == 0x01 && Nat.ble 1 r.2.length) (1, p) rest hpred]
        rfl
      rw [hfindr]
      have hp : (p ++ (encodeRecords rest ++ post)).getD 0 0 = p.getD 0 0 :=
        List.getD_append _ _ _ _ (by omega)
      rw [hp]
    · rw [if_neg hc]
      have hpredf : ¬ ((fun (r : Nat × List Nat) => r.1 == 0x01 && Nat.ble 1 r.2.length)
          (c, p) = true) := by
        intro hb
        rcases Bool.and_eq_true_iff.mp hb with ⟨hb1, hb2⟩
        exact hc ⟨beq_iff_eq.mp hb1, by simpa [Nat.ble_eq] using hb2⟩
      have hRHS : firstDc1Enc ((c, p) :: rest) = firstDc1Enc rest := by
        unfold firstDc1Enc
        rw [@List.find?_cons_of_neg (Nat × List Nat)
          (fun r => r.1 == 0x01 && Nat.ble 1 r.2.length) (c, p) rest hpredf]
      rw [hRHS]
      have hframe : front ++ ((c :: p.length :: (p ++ encodeRecords rest)) ++ post)
          = (front ++ (c :: p.length :: p)) ++ (encodeRecords rest ++ post) := by simp
      rw [hframe]
      have hlng : front.length - 5 + (c :: p.length :: (p ++ encodeRecords rest)).length
          = (front ++ (c :: p.length :: p)).length - 5 + (encodeRecords rest).length := by
        simp only [List.length_cons, List.length_append]
        omega
      rw [hlng]
      have hoff : front.length + 2 + p.length = (front ++ (c :: p.length :: p)).length := by
        simp only [List.length_cons, List.length_append]
        omega
      rw [hoff]
      exact ih (front ++ (c :: p.length :: p)) f
        (by simp only [List.length_cons, List.length_append]; omega)
        (by simp only [List.length_cons] at hf; omega)

/-- Claim C7 (amended): when the declared body is exactly a record
encoding (every record's declared length fits inside the body), the DC1
transaction scan reads the records `[code, length, payload]` in order,
advancing by `2 + length`, never reads payload bytes beyond the body
end, and returns the first payload byte of the first DC1 record with
length ≥ 1 (`none` when there is no such record). A record whose
declared length would run past the body end, however, is NOT a stopping
condition: the scanner still processes it and takes its payload from the
frame bytes after the body (checksum/trailer), as the counterexample
shows. -/
theorem dc1_scan_on_well_formed_body (pre post : List Nat)
    (recs : List (Nat × List Nat)) (hpre : pre.length = 5) :
    dc1Inner (pre ++ (encodeRecords recs ++ post)) (encodeRecords recs).length
      ((encodeRecords recs).length + 1) 5 = firstDc1Enc recs := by
  have h := dc1Inner_encode post recs pre ((encodeRecords recs).length + 1)
    (by omega) (by have := length_le_encodeRecords recs; omega)
  rw [hpre] at h
  simpa using h

/-- Witness for `dc1_scan_on_well_formed_body`: a body holding a DC2
record `[02 02 07 07]` then a DC1 record `[01 01 09]`; the scan returns
status 0x09, the first payload byte of the DC1 record. -/
theorem dc1_scan_on_well_formed_body_witness :
    ([0x02, 0x51, 0xF0, 0x00, 0x07] : List Nat).length = 5 ∧
    dc1Inner ([0x02, 0x51, 0xF0, 0x00, 0x07] ++
        (encodeRecords [(0x02, [0x07, 0x07]), (0x01, [0x09])] ++ [0x00, 0x00, 0x03, 0xFA]))
      (encodeRecords [(0x02, [0x07, 0x07]), (0x01, [0x09])]).length
      ((encodeRecords [(0x02, [0x07, 0x07]), (0x01, [0x09])]).length + 1) 5 = some 0x09 :=
  ⟨rfl, (dc1_scan_on_well_formed_body [0x02, 0x51, 0xF0, 0x00, 0x07] [0x00, 0x00, 0x03, 0xFA]
      [(0x02, [0x07, 0x07]), (0x01, [0x09])] rfl).trans (by decide)⟩

/-- Claim C7 counterexample: a CRC-valid frame whose 2-byte body is the
single truncated record `[01 10]` — code DC1, declared length 0x10 with
no payload bytes left in the body. The claim requires the decoder to
stop at this record and decode zero records (so no DC1 status is found),
yet `DC1Parser.extract` returns 0x12, which is the frame byte at offset
7 — the checksum low byte, past the body end at offset `5 + lng = 7`. -/
theorem dc1_truncated_record_reads_past_body :
    dc1Extract [0x02, 0x51, 0xF0, 0x00, 0x02, 0x01, 0x10, 0x12, 0x4B, 0x03, 0xFA] =
      some 0x12 ∧
    List.getD [0x02, 0x51, 0xF0, 0x00, 0x02, 0x01, 0x10, 0x12, 0x4B, 0x03, 0xFA] 7 0 = 0x12 ∧
    5 + List.getD [0x02, 0x51, 0xF0, 0x00, 0x02, 0x01, 0x10, 0x12, 0x4B, 0x03, 0xFA] 4 0 ≤ 7 := by
  decide

/-- Claim C8: when the preset carries both volume and amount (non-None;
the schema validates both strictly positive, hence truthy), the
authorize endpoint raises HTTP 400 before `PumpService.authorize` runs:
no frame is built and nothing is written to the channel. -/
theorem authorize_rejects_both_presets (v a : ℚ) (hv : 0 < v) (ha : 0 < a) :
    api_authorize (some (some v, some a)) = Except.error 400 := by
  have h1 : floatTruthy (some v) = true := by
    simp [floatTruthy]; exact hv.ne'
  have h2 : floatTruthy (some a) = true := by
    simp [floatTruthy]; exact ha.ne'
  simp [api_authorize, h1, h2]

/-- Witness for `authorize_rejects_both_presets` at volume 10, amount 5. -/
theorem authorize_rejects_both_presets_witness :
    (0 : ℚ) < 10 ∧ (0 : ℚ) < 5 ∧
    api_authorize (some (some 10, some 5)) = Except.error 400 :=
  ⟨by norm_num, by norm_num,
    authorize_rejects_both_presets 10 5 (by norm_num) (by norm_num)⟩

/-- Claim C9 counterexample: `update_price(pump, {1: 52.50})` (52.50
scaled exactly to 5250 hundredths) yields a 48-byte payload — sixteen
3-byte entries, not two — whose first entry is 00 52 50, not the claimed
05 25 00. -/
theorem update_price_scenario_bytes_differ :
    update_price_block [(1, 5250)] =
      some ([0x05, 48] ++ ([0x00, 0x52, 0x50] ++ List.replicate 45 0)) ∧
    ([0x00, 0x52, 0x50] ++ List.replicate 45 0 : List Nat) ≠
      [0x05, 0x25, 0x00] ++ [0x00, 0x00, 0x00] ∧ (48 : Nat) ≠ 6 := by
  decide

/-- Claim C9 (amended): `update_price(pump, {1: 52.50})` builds the CD5
block `[0x05, 0x30]` followed by a fixed table of sixteen 3-byte
packed-BCD entries in nozzle order 1..16 (the code always covers 16
positions regardless of the pump's nozzle count): nozzle 1 is the price
in hundredths, 5250, packed as 00 52 50, and every unlisted nozzle is
00 00 00. -/
theorem update_price_scenario :
    update_price_block [(1, 5250)] =
      some ([0x05, 0x30] ++ priceToBcd 5250 ++ List.replicate 45 0) ∧
    priceToBcd 5250 = [0x00, 0x52, 0x50] := by
  decide

/-- Claim C10 counterexample: `return_status` produces the same outcome —
the empty dict, modelled `none` — for a channel-level failure (driver
returned `b""` after exhausting retries) and for a successful exchange
whose CRC-valid reply (body `[DC2, 0x00]`, CRC 0x0C70 over the header)
decodes to zero DC1 records; the two outcomes are one value, not
distinct. -/
theorem status_outcomes_not_distinct :
    calc_crc [0x51, 0xF0, 0x00, 0x02, 0x02, 0x00] = 0x0C70 ∧
    return_status_result [] =
      return_status_result [0x02, 0x51, 0xF0, 0x00, 0x02, 0x02, 0x00, 0x70, 0x0C, 0x03, 0xFA] := by
  decide

/-- Claim C10 (amended): for the status operation, a channel-level
failure (empty driver result) and a successful exchange decoding to zero
transaction records both surface as the same empty outcome; the caller
cannot tell the two failure modes apart. -/
theorem status_outcomes_both_empty :
    return_status_result [] = none ∧
    return_status_result [0x02, 0x51, 0xF0, 0x00, 0x02, 0x02, 0x00, 0x70, 0x0C, 0x03, 0xFA]
      = none := by
  decide

end Ung
